import Mathlib

/-!
Verification of the stacksenv CLI core: credential identifier codec,
authenticated-encryption envelope, key/AAD negotiation sequencer and
remote fetch orchestrator, shallowly embedded from the Go sources
(pkg/stacksenv/utils.go, pkg/encrypt/encrypt.go, the crypto and client
service of pkg/stacksenv, and pkg/stacksenv/stackenv.go).

Library primitives that the Go code calls (sha256.Sum256, AES-GCM,
crypto/rand, base64, json.Marshal/Unmarshal, url.Values.Encode) are
modelled symbolically: hashing and sealing are injective constructors,
authentication is ideal (an open succeeds exactly when key, nonce and
AAD match the sealing), the random nonce is an explicit argument, and
query encoding is implemented byte-for-byte after net/url's QueryEscape
and Values.Encode (sorted keys, escaped values). Everything the
repository itself computes is translated statement by statement.
-/

deriving instance DecidableEq for Except

namespace StacksEnv

/-- Accumulator pass of splitOnChar: collects the current field in
reverse, emits it at each separator and at the end of the input. -/
def splitOnCharAux (sep : Char) : List Char → List Char → List (List Char)
  | [], acc => [acc.reverse]
  | c :: cs, acc =>
    if c = sep then acc.reverse :: splitOnCharAux sep cs []
    else splitOnCharAux sep cs (c :: acc)

/-- Go strings.Split for a single-character separator (every separator the
parser uses — '@' ':' '/' '?' '&' '=' — is one character): splits around
every occurrence, keeping empty fields, never returning an empty list. -/
def splitOnChar (sep : Char) (s : String) : List String :=
  (splitOnCharAux sep s.data []).map String.mk

/-- Go `any` values as they arise from json.Unmarshal: a closed sum of the
JSON value shapes a property value can take. Numbers are modelled as
integers. -/
inductive JValue where
  | str (s : String)
  | num (n : Int)
  | bool (b : Bool)
  | null
deriving DecidableEq, Repr

/-- One property record, Go struct ContextData: property name plus value
(pkg/stacksenv/types.go). -/
structure ContextData where
  property : String
  value : JValue
deriving DecidableEq, Repr

/-- Go struct Config from pkg/stacksenv/types.go. -/
structure Config where
  ID : String
  Secret : String
  SecretKey : String
  ServerURL : String
  Branch : String
  DisableHTTPS : Bool
deriving DecidableEq, Repr

/-- The distinct error returns of DefaultURLParser.ParseURL
(pkg/stacksenv/utils.go), each carrying the data interpolated into its
fmt.Errorf message. -/
inductive ParseError where
  | missingAt (raw : String)
  | badCredentials (rawLeft : String)
  | emptyID
  | emptySecret
  | emptySecretKey
  | badServer (rawRight : String)
  | emptyServerURL
  | missingBranch
  | emptyBranch
  | badQueryOption (raw : String)
deriving DecidableEq, Repr

/-- The fmt.Errorf message text of each ParseURL error, copied from
pkg/stacksenv/utils.go. -/
def renderParseError : ParseError → String
  | .missingAt raw =>
      "invalid stacksenv URL format: missing '@' separator. Expected format: 'stacksenv://ID:SECRET:SECRET_KEY@SERVER_URL/BRANCH', but got: " ++ raw
  | .badCredentials rawLeft =>
      "invalid credentials format in URL: expected 'ID:SECRET:SECRET_KEY' (three colon-separated values), but got: " ++ rawLeft ++ ". Please verify your credentials are correctly formatted"
  | .emptyID =>
      "environment ID is missing in URL credentials. Expected format: 'ID:SECRET:SECRET_KEY'"
  | .emptySecret =>
      "secret key is missing in URL credentials. Expected format: 'ID:SECRET:SECRET_KEY'"
  | .emptySecretKey =>
      "secret key (second key) is missing in URL credentials. Expected format: 'ID:SECRET:SECRET_KEY'"
  | .badServer rawRight =>
      "invalid server URL format: expected 'SERVER_URL/BRANCH' (server and branch separated by '/'), but got: " ++ rawRight
  | .emptyServerURL =>
      "server URL is missing. Expected format: 'SERVER_URL/BRANCH'"
  | .missingBranch =>
      "invalid branch format: branch name is missing. Expected format: 'SERVER_URL/BRANCH' or 'SERVER_URL/BRANCH?disable_https=true'"
  | .emptyBranch =>
      "branch name is missing. Expected format: 'SERVER_URL/BRANCH'"
  | .badQueryOption raw =>
      "invalid query parameter format: '" ++ raw ++ "'. Expected format: 'KEY=VALUE' (e.g., 'disable_https=true')"

/-- The query-parameter loop of DefaultURLParser.ParseURL
(pkg/stacksenv/utils.go lines 77-88): each option must split on a single
'=' into exactly two parts, a 'disable_https' key overwrites the flag with
(value == "true"), other keys are ignored. -/
def parseOptions : List String → Config → Except ParseError Config
  | [], config => .ok config
  | option :: rest, config =>
    match splitOnChar '=' option with
    | [k, v] =>
        if k = "disable_https" then
          parseOptions rest { config with DisableHTTPS := v = "true" }
        else
          parseOptions rest config
    | _ => .error (.badQueryOption option)

/-- DefaultURLParser.ParseURL from pkg/stacksenv/utils.go, statement by
statement. Only index 1 of the '?'-split is ever parsed for options,
exactly as the source reads branchAndOptions[1]. -/
def ParseURL (urlStr : String) : Except ParseError Config :=
  match splitOnChar '@' urlStr with
  | [credStr, serverStr] =>
    match splitOnChar ':' credStr with
    | [id, secret, secretKey] =>
      if id = "" then .error .emptyID
      else if secret = "" then .error .emptySecret
      else if secretKey = "" then .error .emptySecretKey
      else
        match splitOnChar '/' serverStr with
        | [serverURL, remainder] =>
          if serverURL = "" then .error .emptyServerURL
          else
            match splitOnChar '?' remainder with
            | [] => .error .missingBranch
            | [branch] =>
                if branch = "" then .error .emptyBranch
                else .ok { ID := id, Secret := secret, SecretKey := secretKey,
                           ServerURL := serverURL, Branch := branch, DisableHTTPS := false }
            | branch :: optStr :: _ =>
                if branch = "" then .error .emptyBranch
                else parseOptions (splitOnChar '&' optStr)
                       { ID := id, Secret := secret, SecretKey := secretKey,
                         ServerURL := serverURL, Branch := branch, DisableHTTPS := false }
        | _ => .error (.badServer serverStr)
    | _ => .error (.badCredentials credStr)
  | _ => .error (.missingAt urlStr)

/-- A 32-byte AES key derived by sha256.Sum256 from a secret string.
Symbolic model of the hash: an injective constructor (collisions are
abstracted away), so two derived keys are equal exactly when the secrets
are. -/
structure GCMKey where
  ofSecret : String
deriving DecidableEq, Repr

/-- Symbolic sha256.Sum256: derives the fixed 32-byte AES-256 key from the
caller-supplied shared secret (encrypt.go line 43 / crypt.go line 162). -/
def sha256Sum256 (sharedSecret : String) : GCMKey := ⟨sharedSecret⟩

/-- The 12 random nonce bytes, as byte values. The Go code draws them from
crypto/rand; the model takes them as an explicit argument of Encrypt. -/
def GCMNonce : Type := List Nat
deriving instance DecidableEq, Repr for GCMNonce

/-- Plaintext bytes of the envelope. Constructor json rs is the
json.Marshal image of a record slice; rawBytes covers any other byte
string (never produced by Encrypt, and symbolically never valid JSON for a
record slice). -/
inductive Plaintext where
  | json (records : List ContextData)
  | rawBytes (bs : List Nat)
deriving DecidableEq, Repr

/-- The ciphertext-plus-tag blob produced by AES-GCM. Constructor sealed
is the gcm.Seal image, recording key, nonce, AAD and plaintext; junk
covers arbitrary attacker-chosen bytes that are not a genuine sealing. -/
inductive GCMBlob where
  | sealed (key : GCMKey) (nonce : GCMNonce) (aad : String) (plain : Plaintext)
  | junk (bs : List Nat)
deriving DecidableEq, Repr

/-- Model of gcm.Open as an ideal AEAD: succeeds exactly on a genuine sealing under the
same key, same nonce and same AAD, returning its plaintext; fails closed
on everything else (tampered bytes, wrong key, wrong AAD). -/
def gcmOpen (key : GCMKey) (nonce : GCMNonce) (aad : String) : GCMBlob → Option Plaintext
  | .sealed k n a p => if k = key ∧ n = nonce ∧ a = aad then some p else none
  | .junk _ => none

/-- Model of json.Unmarshal on the decrypted plaintext: the inverse of
json.Marshal on genuine marshal images, failure on other bytes. -/
def jsonUnmarshal : Plaintext → Option (List ContextData)
  | .json records => some records
  | .rawBytes _ => none

/-- The raw bytes obtained by base64-decoding an envelope string: either at
least nonce-size bytes, split structurally into the 12-byte nonce prefix
and the remaining ciphertext blob (encrypt.go lines 110-111), or fewer
than nonce-size bytes (the invalid-payload-size branch). -/
inductive RawPayload where
  | payload (nonce : GCMNonce) (ct : GCMBlob)
  | short (bs : List Nat)
deriving DecidableEq, Repr

/-- The transport string handed to Decrypt: the empty string, a valid
base64 encoding of some raw bytes, or a string that base64-decoding
rejects. -/
inductive EncString where
  | empty
  | b64 (raw : RawPayload)
  | junk (s : String)
deriving DecidableEq, Repr

/-- Model of base64.StdEncoding.DecodeString: the empty string decodes to
zero bytes, a valid encoding decodes to its bytes, anything else fails. -/
def base64Decode : EncString → Option RawPayload
  | .empty => some (.short [])
  | .b64 raw => some raw
  | .junk _ => none

/-- The distinct error returns of Encrypt/Decrypt (pkg/encrypt/encrypt.go
and DefaultCryptoService in pkg/stacksenv), in source order. -/
inductive CryptoError where
  | emptyPayload
  | emptySecret
  | base64Failed
  | invalidSize
  | authFailed
  | unmarshalFailed
deriving DecidableEq, Repr

/-- Encrypt from pkg/encrypt/encrypt.go lines 27-70 (DefaultCryptoService
Encrypt is the same logic): reject an empty shared secret, marshal the
records, derive the key, seal under the fresh nonce with the given AAD,
prepend the nonce and base64-encode. Marshal, cipher and GCM
initialisation cannot fail for these inputs, and the random nonce is the
explicit argument. -/
def Encrypt (data : List ContextData) (sharedSecret : String) (aad : String)
    (nonce : GCMNonce) : Except CryptoError EncString :=
  if sharedSecret = "" then .error .emptySecret
  else
    let plaintext := Plaintext.json data
    let key := sha256Sum256 sharedSecret
    let ciphertext := GCMBlob.sealed key nonce aad plaintext
    .ok (.b64 (.payload nonce ciphertext))

/-- Decrypt from pkg/encrypt/encrypt.go lines 73-128 (DefaultCryptoService
Decrypt is the same logic): the empty-payload and empty-secret checks come
first, then base64 decoding, key derivation, the payload-size check, the
authenticated open, and the JSON unmarshal. -/
def Decrypt (encrypted : EncString) (sharedSecret : String) (aad : String) :
    Except CryptoError (List ContextData) :=
  if encrypted = .empty then .error .emptyPayload
  else if sharedSecret = "" then .error .emptySecret
  else
    match base64Decode encrypted with
    | none => .error .base64Failed
    | some raw =>
      let key := sha256Sum256 sharedSecret
      match raw with
      | .short _ => .error .invalidSize
      | .payload nonce ciphertext =>
        match gcmOpen key nonce aad ciphertext with
        | none => .error .authFailed
        | some plaintext =>
          match jsonUnmarshal plaintext with
          | none => .error .unmarshalFailed
          | some result => .ok result

/-- The distinct error returns of the fetch orchestrator
DefaultClientService.GetContextDecryptedData, each carrying the data its
fmt.Errorf message interpolates. -/
inductive FetchError where
  | requestFailed (msg : String)
  | httpError (status : Nat) (body : String)
  | invalidJSON
  | serverReported (msg : String)
  | missingData
  | negotiationFailed
deriving DecidableEq, Repr

/-- The six decryption attempts of GetContextDecryptedData, exactly as the
source chains them: Try 1 SecretKey with aad Secret|SecretKey, Try 2
Secret with aad SecretKey, Try 3 SecretKey with aad Secret, Try 4 Secret
with aad Secret|SecretKey, Try 5 SecretKey with empty aad, Try 6 Secret
with empty aad; the first success returns its records, otherwise the
aggregated negotiation error. The second component records, in call
order, every (key, aad) pair actually passed to Decrypt. -/
def decryptWithFallbackT (encryptedData : EncString) (secretA secretB : String) :
    Except FetchError (List ContextData) × List (String × String) :=
  let aad := secretA ++ "|" ++ secretB
  match Decrypt encryptedData secretB aad with
  | .ok r => (.ok r, [(secretB, aad)])
  | .error _ =>
  match Decrypt encryptedData secretA secretB with
  | .ok r => (.ok r, [(secretB, aad), (secretA, secretB)])
  | .error _ =>
  match Decrypt encryptedData secretB secretA with
  | .ok r => (.ok r, [(secretB, aad), (secretA, secretB), (secretB, secretA)])
  | .error _ =>
  match Decrypt encryptedData secretA aad with
  | .ok r => (.ok r, [(secretB, aad), (secretA, secretB), (secretB, secretA), (secretA, aad)])
  | .error _ =>
  match Decrypt encryptedData secretB "" with
  | .ok r => (.ok r, [(secretB, aad), (secretA, secretB), (secretB, secretA), (secretA, aad), (secretB, "")])
  | .error _ =>
  match Decrypt encryptedData secretA "" with
  | .ok r => (.ok r, [(secretB, aad), (secretA, secretB), (secretB, secretA), (secretA, aad), (secretB, ""), (secretA, "")])
  | .error _ =>
    (.error .negotiationFailed, [(secretB, aad), (secretA, secretB), (secretB, secretA), (secretA, aad), (secretB, ""), (secretA, "")])

/-- The negotiation result: first component of the instrumented chain. -/
def decryptWithFallback (encryptedData : EncString) (secretA secretB : String) :
    Except FetchError (List ContextData) :=
  (decryptWithFallbackT encryptedData secretA secretB).1

/-- The (key, aad) pairs the negotiation actually hands to Decrypt, in
order. -/
def fallbackAttempts (encryptedData : EncString) (secretA secretB : String) :
    List (String × String) :=
  (decryptWithFallbackT encryptedData secretA secretB).2

/-- Modelled from the spec: the fixed ordered candidate list of section
4.3, with secretA = Config.Secret and secretB = Config.SecretKey —
(secretB, secretA|secretB), (secretA, secretB), (secretB, secretA),
(secretA, secretA|secretB), (secretB, empty), (secretA, empty). -/
def specCandidates (secretA secretB : String) : List (String × String) :=
  [ (secretB, secretA ++ "|" ++ secretB),
    (secretA, secretB),
    (secretB, secretA),
    (secretA, secretA ++ "|" ++ secretB),
    (secretB, ""),
    (secretA, "") ]

/-- Modelled from the spec: first-match-wins evaluation of an ordered
candidate list — each candidate is opened in turn, the first success
short-circuits, and the aggregated negotiation error is returned when
every candidate fails. The second component records the attempts made. -/
def specNegotiateT (encryptedData : EncString) :
    List (String × String) → Except FetchError (List ContextData) × List (String × String)
  | [] => (.error .negotiationFailed, [])
  | c :: rest =>
    match Decrypt encryptedData c.1 c.2 with
    | .ok r => (.ok r, [c])
    | .error _ =>
      let t := specNegotiateT encryptedData rest
      (t.1, c :: t.2)

/-- Modelled from the spec: the negotiation result of first-match-wins
evaluation. -/
def specNegotiate (encryptedData : EncString) (cands : List (String × String)) :
    Except FetchError (List ContextData) :=
  (specNegotiateT encryptedData cands).1

/-- Candidates tried by a first-match-wins scan: every candidate up to and
including the first successful one, or the whole list when none
succeeds. -/
def takeThrough (p : α → Bool) : List α → List α
  | [] => []
  | x :: xs => if p x then [x] else x :: takeThrough p xs

/-- Outcome of json.Unmarshal applied to the HTTP response body and of the
two type assertions the client makes on it: fail when the body is not a
JSON object; otherwise the error field when present as a string, and the
data field when present as a string (an EncString models that string). -/
inductive BodyParse where
  | ok (errorField : Option String) (dataField : Option EncString)
  | fail
deriving DecidableEq, Repr

/-- An HTTP response as GetContextDecryptedData consumes it: the status
code, the raw body text io.ReadAll returns, and the json.Unmarshal
outcome on that text (modelled by carrying the outcome in the value). -/
structure HTTPResponse where
  statusCode : Nat
  bodyText : String
  bodyJSON : BodyParse
deriving DecidableEq, Repr

/-- The data-extraction and negotiation tail of GetContextDecryptedData:
the data field must be present as a non-empty string, then the six-way
negotiation runs on it with Secret and SecretKey. -/
def negotiateData (config : Config) (errorField : Option String)
    (dataField : Option EncString) :
    Except FetchError (List ContextData) × List (String × String) :=
  match errorField with
  | some m =>
      if m = "" then
        match dataField with
        | some d =>
            if d = .empty then (.error .missingData, [])
            else decryptWithFallbackT d config.Secret config.SecretKey
        | none => (.error .missingData, [])
      else (.error (.serverReported m), [])
  | none =>
      match dataField with
      | some d =>
          if d = .empty then (.error .missingData, [])
          else decryptWithFallbackT d config.Secret config.SecretKey
      | none => (.error .missingData, [])

/-- DefaultClientService.GetContextDecryptedData: the network call's
outcome is the explicit argument (an error message on transport failure,
the response otherwise). A transport failure is wrapped; a status other
than 200 returns the HTTP error carrying status and body with nothing
decrypted; a non-JSON body fails; a non-empty error field is surfaced; a
missing or empty data field fails; otherwise the six-way negotiation runs.
The second component records every (key, aad) pair passed to Decrypt. -/
def getContextDecryptedDataT (config : Config) (resp : Except String HTTPResponse) :
    Except FetchError (List ContextData) × List (String × String) :=
  match resp with
  | .error msg => (.error (.requestFailed msg), [])
  | .ok r =>
    if r.statusCode ≠ 200 then (.error (.httpError r.statusCode r.bodyText), [])
    else
      match r.bodyJSON with
      | .fail => (.error .invalidJSON, [])
      | .ok errorField dataField => negotiateData config errorField dataField

/-- The fetch result: first component of the instrumented orchestrator. -/
def getContextDecryptedData (config : Config) (resp : Except String HTTPResponse) :
    Except FetchError (List ContextData) :=
  (getContextDecryptedDataT config resp).1

/-- The (key, aad) pairs a fetch hands to Decrypt, in order. -/
def fetchAttempts (config : Config) (resp : Except String HTTPResponse) :
    List (String × String) :=
  (getContextDecryptedDataT config resp).2

/-- Upper-case hex digit of a value below 16, as net/url's escape uses
("0123456789ABCDEF"). -/
def hexUpperDigit (n : Nat) : Char :=
  if n < 10 then Char.ofNat (48 + n) else Char.ofNat (55 + n)

/-- Model of net/url's QueryEscape on one character: ASCII letters, digits and
'-' '_' '.' '~' pass through, a space becomes '+', everything else is
percent-encoded with upper-case hex. Modelled at the character level; it
agrees with Go's byte-level escaping on ASCII input. -/
def queryEscapeChar (c : Char) : List Char :=
  if c.isAlphanum ∨ c = '-' ∨ c = '_' ∨ c = '.' ∨ c = '~' then [c]
  else if c = ' ' then ['+']
  else ['%', hexUpperDigit (c.toNat / 16 % 16), hexUpperDigit (c.toNat % 16)]

/-- Model of net/url's QueryEscape on a string. -/
def queryEscape (s : String) : String :=
  ⟨s.data.flatMap queryEscapeChar⟩

/-- Lexicographic order on character lists, as Go's byte-wise string
comparison orders ASCII strings (a strict prefix sorts first). -/
def charListLtB : List Char → List Char → Bool
  | [], [] => false
  | [], _ :: _ => true
  | _ :: _, [] => false
  | a :: as, b :: bs =>
    if a.toNat < b.toNat then true
    else if a.toNat = b.toNat then charListLtB as bs
    else false

/-- Go's string less-than, used by sort.Strings inside Values.Encode. -/
def stringLtB (a b : String) : Bool := charListLtB a.data b.data

/-- Insertion step of sort.Strings as Values.Encode applies it to the
query keys: ascending lexicographic order. -/
def insertSortedByKey (p : String × String) : List (String × String) → List (String × String)
  | [] => [p]
  | q :: rest => if stringLtB p.1 q.1 then p :: q :: rest else q :: insertSortedByKey p rest

/-- The sorted key order Values.Encode iterates in. Each key of the query
carries one value here, as in the source (one Set call per key). -/
def sortByKey (l : List (String × String)) : List (String × String) :=
  l.foldr insertSortedByKey []

/-- The '&'-joining of Values.Encode's buffer writes. -/
def joinAmp : List String → String
  | [] => ""
  | [x] => x
  | x :: xs => x ++ "&" ++ joinAmp xs

/-- Model of url.Values.Encode: sorts the keys, escapes key and value with
QueryEscape, joins "key=value" pieces with '&'. -/
def urlValuesEncode (l : List (String × String)) : String :=
  joinAmp ((sortByKey l).map (fun p => queryEscape p.1 ++ "=" ++ queryEscape p.2))

/-- The request URL SendCLIRequest builds (pkg/stacksenv http client):
protocol http when DisableHTTPS is set, https otherwise; base
protocol://ServerURL/cli; query from url.Values with id and branch set.
url.Parse followed by u.String() is modelled as the identity on the base
URL, which is faithful whenever ServerURL is a well-formed host. -/
def sendCLIRequestURL (config : Config) : String :=
  let protocol := if config.DisableHTTPS then "http" else "https"
  let baseURL := protocol ++ "://" ++ config.ServerURL ++ "/cli"
  baseURL ++ "?" ++ urlValuesEncode [("id", config.ID), ("branch", config.Branch)]

/-- True exactly on string-shaped property values: the values on which the
Go type assertion Value.(string) succeeds. -/
def JValue.isStr : JValue → Bool
  | .str _ => true
  | _ => false

/-- The SetOSEnv loop of HandleStacksENV (stackenv.go lines 230-232): each
property is set with the unchecked assertion Value.(string). A non-string
value makes the assertion panic; the model returns none for that panic and
the name/value pairs set otherwise. -/
def setOSEnvProperties : List ContextData → Option (List (String × String))
  | [] => some []
  | cd :: rest =>
    match cd.value with
    | .str s => (setOSEnvProperties rest).map (fun tail => (cd.property, s) :: tail)
    | _ => none

/-- The value stringification of Handler.HandleStacksenvURLCLI (stackenv.go
lines 104-108): the checked assertion Value.(string) when it succeeds,
otherwise fmt.Sprintf of the value — total on every value shape. Numbers
print in decimal, booleans as true/false, nil as Go renders it. -/
def envValueString : JValue → String
  | .str s => s
  | .num n => toString n
  | .bool b => if b then "true" else "false"
  | .null => "<nil>"

/-- The environment-variable slice Handler.HandleStacksenvURLCLI builds:
one "name=value" entry per property, via envValueString. -/
def buildEnvVars (props : List ContextData) : List String :=
  props.map (fun cd => cd.property ++ "=" ++ envValueString cd.value)

/-- The values of the disable_https pairs of a query, in order. -/
def disableHTTPSValues (opts : List String) : List String :=
  opts.filterMap (fun o =>
    match splitOnChar '=' o with
    | [k, v] => if k = "disable_https" then some v else none
    | _ => none)

/-- The transport flag after a query: the last disable_https pair wins —
true exactly when its value equals "true" — and the prior flag value
stands when no such pair occurs. -/
def lastDisableHTTPS (opts : List String) (dflt : Bool) : Bool :=
  match disableHTTPSValues opts with
  | [] => dflt
  | v :: vs => vs.getLastD v = "true"

/-! Negotiation: the six-way chain equals first-match-wins evaluation of
the spec's candidate list. -/

theorem decryptWithFallbackT_eq_spec (e : EncString) (a b : String) :
    decryptWithFallbackT e a b = specNegotiateT e (specCandidates a b) := by
  cases h1 : Decrypt e b (a ++ "|" ++ b) with
  | ok r => simp [decryptWithFallbackT, specNegotiateT, specCandidates, h1]
  | error e1 =>
    cases h2 : Decrypt e a b with
    | ok r => simp [decryptWithFallbackT, specNegotiateT, specCandidates, h1, h2]
    | error e2 =>
      cases h3 : Decrypt e b a with
      | ok r => simp [decryptWithFallbackT, specNegotiateT, specCandidates, h1, h2, h3]
      | error e3 =>
        cases h4 : Decrypt e a (a ++ "|" ++ b) with
        | ok r => simp [decryptWithFallbackT, specNegotiateT, specCandidates, h1, h2, h3, h4]
        | error e4 =>
          cases h5 : Decrypt e b "" with
          | ok r => simp [decryptWithFallbackT, specNegotiateT, specCandidates, h1, h2, h3, h4, h5]
          | error e5 =>
            cases h6 : Decrypt e a "" with
            | ok r => simp [decryptWithFallbackT, specNegotiateT, specCandidates, h1, h2, h3, h4, h5, h6]
            | error e6 => simp [decryptWithFallbackT, specNegotiateT, specCandidates, h1, h2, h3, h4, h5, h6]

theorem specNegotiateT_error_iff (e : EncString) (l : List (String × String)) :
    (specNegotiateT e l).1 = .error .negotiationFailed ↔
      ∀ c ∈ l, (Decrypt e c.1 c.2).isOk = false := by
  induction l with
  | nil => simp [specNegotiateT]
  | cons c rest ih =>
    cases h : Decrypt e c.1 c.2 with
    | ok r => simp [specNegotiateT, h, Except.isOk, Except.toBool]
    | error err => simp [specNegotiateT, h, Except.isOk, Except.toBool, ih]

theorem specNegotiateT_attempts (e : EncString) (l : List (String × String)) :
    (specNegotiateT e l).2 = takeThrough (fun c => (Decrypt e c.1 c.2).isOk) l := by
  induction l with
  | nil => simp [specNegotiateT, takeThrough]
  | cons c rest ih =>
    cases h : Decrypt e c.1 c.2 with
    | ok r => simp [specNegotiateT, takeThrough, h, Except.isOk, Except.toBool]
    | error err => simp [specNegotiateT, takeThrough, h, Except.isOk, Except.toBool, ih]

/-- C1: for every envelope string and secret pair, the negotiation
evaluates exactly the spec's six (key, AAD) candidates in the fixed order
(secretB with secretA|secretB, secretA with secretB, secretB with secretA,
secretA with secretA|secretB, secretB with empty AAD, secretA with empty
AAD): the result equals first-match-wins evaluation of that list, the
attempted candidates are exactly the list up to and including the first
success (the whole list when none succeeds), and the aggregated
negotiation error is returned exactly when all six candidates fail. -/
theorem negotiation_fixed_order (e : EncString) (a b : String) :
    decryptWithFallback e a b = specNegotiate e (specCandidates a b)
    ∧ fallbackAttempts e a b =
        takeThrough (fun c => (Decrypt e c.1 c.2).isOk) (specCandidates a b)
    ∧ (decryptWithFallback e a b = .error .negotiationFailed ↔
        ∀ c ∈ specCandidates a b, (Decrypt e c.1 c.2).isOk = false) := by
  refine ⟨?_, ?_, ?_⟩
  · show (decryptWithFallbackT e a b).1 = (specNegotiateT e (specCandidates a b)).1
    rw [decryptWithFallbackT_eq_spec]
  · show (decryptWithFallbackT e a b).2 = _
    rw [decryptWithFallbackT_eq_spec, specNegotiateT_attempts]
  · show (decryptWithFallbackT e a b).1 = _ ↔ _
    rw [decryptWithFallbackT_eq_spec]
    exact specNegotiateT_error_iff e _

/-- C2: sealing a record list under a non-empty secret and non-empty AAD
and opening the envelope with the same secret and AAD returns exactly the
original records. -/
theorem encrypt_decrypt_roundtrip (records : List ContextData) (key aad : String)
    (nonce : GCMNonce) (hk : key ≠ "") (ha : aad ≠ "") :
    ∃ env, Encrypt records key aad nonce = .ok env
      ∧ Decrypt env key aad = .ok records := by
  refine ⟨.b64 (.payload nonce (.sealed (sha256Sum256 key) nonce aad (.json records))), ?_, ?_⟩
  · simp [Encrypt, hk]
  · simp [Decrypt, hk, base64Decode, gcmOpen, jsonUnmarshal]

theorem encrypt_decrypt_roundtrip_witness :
    ("k" : String) ≠ "" ∧ ("a" : String) ≠ "" ∧
      ∃ env, Encrypt [⟨"p", .str "v"⟩] "k" "a" [0] = .ok env
        ∧ Decrypt env "k" "a" = .ok [⟨"p", .str "v"⟩] :=
  ⟨by decide, by decide,
    encrypt_decrypt_roundtrip [⟨"p", .str "v"⟩] "k" "a" [0] (by decide) (by decide)⟩

/-- C3: an envelope sealed with AAD X never opens under a different AAD Y
with the same key — the open fails closed with the authentication error —
and likewise a tampered ciphertext blob fails authentication and a
payload shorter than the nonce fails the size check; no plaintext is ever
returned in these cases. -/
theorem decrypt_aad_mismatch_fails (records : List ContextData) (key aadX aadY : String)
    (nonce nonce2 : GCMNonce) (bs : List Nat) (env : EncString)
    (hne : aadX ≠ aadY) (hk : key ≠ "")
    (henc : Encrypt records key aadX nonce = .ok env) :
    Decrypt env key aadY = .error .authFailed
    ∧ Decrypt (.b64 (.payload nonce2 (.junk bs))) key aadY = .error .authFailed
    ∧ Decrypt (.b64 (.short bs)) key aadY = .error .invalidSize := by
  refine ⟨?_, ?_, ?_⟩
  · have henv : env = .b64 (.payload nonce (.sealed (sha256Sum256 key) nonce aadX (.json records))) := by
      simp [Encrypt, hk] at henc
      exact henc.symm
    subst henv
    simp [Decrypt, hk, base64Decode, gcmOpen, hne]
  · simp [Decrypt, hk, base64Decode, gcmOpen]
  · simp [Decrypt, hk, base64Decode]

theorem decrypt_aad_mismatch_fails_witness :
    ("x" : String) ≠ "y" ∧ ("k" : String) ≠ ""
    ∧ Encrypt ([] : List ContextData) "k" "x" [0]
        = .ok (.b64 (.payload [0] (.sealed (sha256Sum256 "k") [0] "x" (.json []))))
    ∧ (Decrypt (.b64 (.payload [0] (.sealed (sha256Sum256 "k") [0] "x" (.json [])))) "k" "y"
          = .error .authFailed
        ∧ Decrypt (.b64 (.payload [1] (.junk [7]))) "k" "y" = .error .authFailed
        ∧ Decrypt (.b64 (.short [7])) "k" "y" = .error .invalidSize) :=
  ⟨by decide, by decide, by decide,
    decrypt_aad_mismatch_fails [] "k" "x" "y" [0] [1] [7]
      (.b64 (.payload [0] (.sealed (sha256Sum256 "k") [0] "x" (.json []))))
      (by decide) (by decide) (by decide)⟩

/-- C10: Decrypt rejects the empty encrypted string with the
empty-payload error, Encrypt and Decrypt reject an empty shared secret
with the empty-secret error, and the empty-secret check fires even on an
input that would fail base64 decoding — the guards run before any base64
or cryptographic work, and no plaintext and no panic can result. -/
theorem crypto_empty_guards (e : EncString) (secret aad s : String)
    (records : List ContextData) (nonce : GCMNonce) (he : e ≠ .empty) :
    Decrypt .empty secret aad = .error .emptyPayload
    ∧ Decrypt e "" aad = .error .emptySecret
    ∧ Encrypt records "" aad nonce = .error .emptySecret
    ∧ Decrypt (.junk s) "" aad = .error .emptySecret := by
  refine ⟨by simp [Decrypt], ?_, by simp [Encrypt], ?_⟩
  · simp [Decrypt, he]
  · simp [Decrypt]

theorem crypto_empty_guards_witness :
    (EncString.junk "zz") ≠ .empty
    ∧ (Decrypt .empty "s" "a" = .error .emptyPayload
        ∧ Decrypt (.junk "zz") "" "a" = .error .emptySecret
        ∧ Encrypt ([] : List ContextData) "" "a" [0] = .error .emptySecret
        ∧ Decrypt (.junk "w") "" "a" = .error .emptySecret) :=
  ⟨by decide, crypto_empty_guards (.junk "zz") "s" "a" "w" [] [0] (by decide)⟩

/-- C5: when the server responds with a non-success status code the fetch
returns the HTTP error carrying exactly that status code and the response
body, with no decryption attempted; and whenever any response leads to at
least one decryption attempt its status code was 200 — negotiation is
reached only after a success status. -/
theorem fetch_http_error_no_negotiation (config : Config) (r r2 : HTTPResponse)
    (h : ¬(200 ≤ r.statusCode ∧ r.statusCode ≤ 299))
    (h2 : fetchAttempts config (.ok r2) ≠ []) :
    getContextDecryptedData config (.ok r) = .error (.httpError r.statusCode r.bodyText)
    ∧ fetchAttempts config (.ok r) = []
    ∧ r2.statusCode = 200 := by
  have hne : r.statusCode ≠ 200 := by
    intro h200
    exact h ⟨by omega, by omega⟩
  refine ⟨?_, ?_, ?_⟩
  · simp [getContextDecryptedData, getContextDecryptedDataT, fetchAttempts, hne]
  · simp [getContextDecryptedData, getContextDecryptedDataT, fetchAttempts, hne]
  · by_contra hne2
    apply h2
    simp [fetchAttempts, getContextDecryptedDataT, hne2]

theorem fetch_http_error_no_negotiation_witness :
    ¬(200 ≤ (404 : Nat) ∧ (404 : Nat) ≤ 299)
    ∧ fetchAttempts ⟨"i", "s", "k", "h", "b", false⟩
        (.ok ⟨200, "", .ok none (some (.junk "zz"))⟩) ≠ []
    ∧ (getContextDecryptedData ⟨"i", "s", "k", "h", "b", false⟩
          (.ok ⟨404, "not found", .fail⟩) = .error (.httpError 404 "not found")
        ∧ fetchAttempts ⟨"i", "s", "k", "h", "b", false⟩ (.ok ⟨404, "not found", .fail⟩) = []
        ∧ (HTTPResponse.mk 200 "" (.ok none (some (.junk "zz")))).statusCode = 200) :=
  ⟨by decide, by decide,
    fetch_http_error_no_negotiation ⟨"i", "s", "k", "h", "b", false⟩
      ⟨404, "not found", .fail⟩ ⟨200, "", .ok none (some (.junk "zz"))⟩
      (by decide) (by decide)⟩

/-- C8: whenever the part of the identifier before the single '@' does
not split on ':' into exactly three non-empty fields, ParseURL returns a
parse error; in particular the identifier with an empty secretA field
yields the missing-secret parse error. -/
theorem parse_credentials_three_fields (s l r : String)
    (hsplit : splitOnChar '@' s = [l, r])
    (hbad : (splitOnChar ':' l).length ≠ 3 ∨ "" ∈ splitOnChar ':' l) :
    (∃ err, ParseURL s = .error err)
    ∧ ParseURL "id::s2@h/b" = .error .emptySecret := by
  refine ⟨?_, by decide⟩
  match hc : splitOnChar ':' l with
  | [] => exact ⟨.badCredentials l, by simp [ParseURL, hsplit, hc]⟩
  | [a] => exact ⟨.badCredentials l, by simp [ParseURL, hsplit, hc]⟩
  | [a, b] => exact ⟨.badCredentials l, by simp [ParseURL, hsplit, hc]⟩
  | a :: b :: c :: d :: tail => exact ⟨.badCredentials l, by simp [ParseURL, hsplit, hc]⟩
  | [a, b, c] =>
    rw [hc] at hbad
    have hmem : a = "" ∨ b = "" ∨ c = "" := by
      rcases hbad with hlen | hmem
      · simp at hlen
      · simp [List.mem_cons] at hmem
        rcases hmem with h1 | h1 | h1
        · exact Or.inl h1.symm
        · exact Or.inr (Or.inl h1.symm)
        · exact Or.inr (Or.inr h1.symm)
    by_cases hA : a = ""
    · exact ⟨.emptyID, by simp [ParseURL, hsplit, hc, hA]⟩
    · by_cases hB : b = ""
      · exact ⟨.emptySecret, by simp [ParseURL, hsplit, hc, hA, hB]⟩
      · have hC : c = "" := by tauto
        exact ⟨.emptySecretKey, by simp [ParseURL, hsplit, hc, hA, hB, hC]⟩

theorem parse_credentials_three_fields_witness :
    splitOnChar '@' "id::s2@h/b" = ["id::s2", "h/b"]
    ∧ ((splitOnChar ':' "id::s2").length ≠ 3 ∨ "" ∈ splitOnChar ':' "id::s2")
    ∧ ((∃ err, ParseURL "id::s2@h/b" = .error err)
        ∧ ParseURL "id::s2@h/b" = .error .emptySecret) :=
  ⟨by decide, by decide,
    parse_credentials_three_fields "id::s2@h/b" "id::s2" "h/b" (by decide) (by decide)⟩

/-- C9: a fetched payload containing a property whose value is not a
string makes the SetOSEnv loop's unchecked Value string assertion panic
(modelled as none) instead of returning an error, while the CLI
environment-building path totally converts every property — string or
not — into one name=value entry via its Sprintf fallback. -/
theorem setosenv_panics_cli_total (props : List ContextData)
    (h : ∃ cd ∈ props, cd.value.isStr = false) :
    setOSEnvProperties props = none
    ∧ buildEnvVars props = props.map (fun cd => cd.property ++ "=" ++ envValueString cd.value)
    ∧ (buildEnvVars props).length = props.length := by
  refine ⟨?_, rfl, by simp [buildEnvVars]⟩
  induction props with
  | nil => simp at h
  | cons cd rest ih =>
    rcases h with ⟨cd2, hmem, hval⟩
    rcases List.mem_cons.mp hmem with heq | htail
    · subst heq
      cases hv : cd2.value <;> simp [JValue.isStr, hv] at hval ⊢ <;> simp [setOSEnvProperties, hv]
    · cases hv : cd.value with
      | str s2 => simp [setOSEnvProperties, hv, ih ⟨cd2, htail, hval⟩]
      | num n => simp [setOSEnvProperties, hv]
      | bool b2 => simp [setOSEnvProperties, hv]
      | null => simp [setOSEnvProperties, hv]

theorem setosenv_panics_cli_total_witness :
    (∃ cd ∈ [ContextData.mk "port" (.num 8080), ContextData.mk "db" (.str "url")],
        cd.value.isStr = false)
    ∧ (setOSEnvProperties [ContextData.mk "port" (.num 8080), ContextData.mk "db" (.str "url")] = none
        ∧ buildEnvVars [ContextData.mk "port" (.num 8080), ContextData.mk "db" (.str "url")]
            = List.map (fun cd => cd.property ++ "=" ++ envValueString cd.value)
                [ContextData.mk "port" (.num 8080), ContextData.mk "db" (.str "url")]
        ∧ (buildEnvVars [ContextData.mk "port" (.num 8080), ContextData.mk "db" (.str "url")]).length
            = ([ContextData.mk "port" (.num 8080), ContextData.mk "db" (.str "url")]).length) :=
  ⟨⟨⟨"port", .num 8080⟩, by decide⟩,
    setosenv_panics_cli_total _ ⟨⟨"port", .num 8080⟩, by decide⟩⟩

set_option maxRecDepth 8000 in
/-- C4 counterexample: on a plain configuration the built URL is not of
the claimed shape with id first — url.Values.Encode emits the parameters
in sorted key order, so branch precedes id. -/
theorem sendCLIRequest_url_not_id_first :
    sendCLIRequestURL ⟨"i", "s", "k", "h", "b", false⟩ ≠ "https://h/cli?id=i&branch=b"
    ∧ sendCLIRequestURL ⟨"i", "s", "k", "h", "b", false⟩ = "https://h/cli?branch=b&id=i" := by
  refine ⟨?_, by decide⟩
  decide

theorem queryEscape_branch : queryEscape "branch" = "branch" := by decide

theorem queryEscape_id : queryEscape "id" = "id" := by decide

theorem stringLtB_branch_id : stringLtB "branch" "id" = true := by decide

/-- C4 amended: the request URL is
scheme://serverAddress/cli?branch=BRANCH&id=ID — http exactly when the
insecure-transport flag is set, https otherwise — with the two query
parameters in the sorted order Values.Encode produces (branch first, then
id) and both values query-escaped. -/
theorem sendCLIRequest_url_shape (config : Config) :
    sendCLIRequestURL config =
      (if config.DisableHTTPS then "http" else "https") ++ "://" ++ config.ServerURL
        ++ "/cli?branch=" ++ queryEscape config.Branch ++ "&id=" ++ queryEscape config.ID := by
  apply String.ext
  simp only [sendCLIRequestURL, urlValuesEncode, sortByKey, List.foldr, insertSortedByKey,
    stringLtB_branch_id, if_true, List.map, joinAmp, queryEscape_branch, queryEscape_id,
    String.data_append]
  cases config.DisableHTTPS <;> simp [String.data_append]

set_option maxRecDepth 8000 in
/-- C6: the spec and the package's own security documentation require
that secret values never appear in error messages, but ParseURL echoes
the raw identifier — secrets included — into its parse errors: the
extra-'@' identifier produces the missing-separator error whose rendered
message contains both secretA and secretB, and a two-field credential
part produces the bad-credentials error whose rendered message contains
secretA. -/
theorem parse_error_message_leaks_secrets :
    ParseURL "id:s1:s2@h@h2/b" = .error (.missingAt "id:s1:s2@h@h2/b")
    ∧ (∃ pre post : String,
        renderParseError (.missingAt "id:s1:s2@h@h2/b") = pre ++ "s1:s2" ++ post)
    ∧ ParseURL "id:s1@h/b" = .error (.badCredentials "id:s1")
    ∧ (∃ pre post : String,
        renderParseError (.badCredentials "id:s1") = pre ++ "s1" ++ post) := by
  refine ⟨by decide, ?_, by decide, ?_⟩
  · exact ⟨"invalid stacksenv URL format: missing '@' separator. Expected format: 'stacksenv://ID:SECRET:SECRET_KEY@SERVER_URL/BRANCH', but got: id:",
      "@h@h2/b", by decide⟩
  · exact ⟨"invalid credentials format in URL: expected 'ID:SECRET:SECRET_KEY' (three colon-separated values), but got: id:",
      ". Please verify your credentials are correctly formatted", by decide⟩

/-- C7 counterexample: the identifier whose query carries
disable_https=true followed by disable_https=x parses successfully with
the transport flag false, although the query contains a disable_https
pair whose value equals "true" — each occurrence overwrites the flag, so
the claimed iff fails. -/
theorem query_flag_not_contains_iff :
    ParseURL "i:s:k@h/b?disable_https=true&disable_https=x"
        = .ok ⟨"i", "s", "k", "h", "b", false⟩
    ∧ "disable_https=true" ∈ splitOnChar '&' "disable_https=true&disable_https=x" := by
  refine ⟨by decide, by decide⟩

theorem lastDisableHTTPS_cons (o : String) (rest : List String) (dflt : Bool) :
    lastDisableHTTPS (o :: rest) dflt =
      match splitOnChar '=' o with
      | [k, v] =>
          if k = "disable_https" then lastDisableHTTPS rest (v = "true")
          else lastDisableHTTPS rest dflt
      | _ => lastDisableHTTPS rest dflt := by
  match hsp : splitOnChar '=' o with
  | [k, v] =>
    by_cases hk : k = "disable_https"
    · simp only [lastDisableHTTPS, disableHTTPSValues, List.filterMap_cons, hsp, hk, if_true]
      cases hvals : List.filterMap (fun o =>
          match splitOnChar '=' o with
          | [k, v] => if k = "disable_https" then some v else none
          | _ => none) rest with
      | nil => simp
      | cons w ws => simp [List.getLastD_cons, List.getLast?_cons]
    · simp only [lastDisableHTTPS, disableHTTPSValues, List.filterMap_cons, hsp, hk, if_false]
  | [] => simp only [lastDisableHTTPS, disableHTTPSValues, List.filterMap_cons, hsp]
  | [k] => simp only [lastDisableHTTPS, disableHTTPSValues, List.filterMap_cons, hsp]
  | k :: v :: w :: tail => simp only [lastDisableHTTPS, disableHTTPSValues, List.filterMap_cons, hsp]

theorem parseOptions_ok_of_wellformed (opts : List String) : ∀ c0 : Config,
    (∀ o ∈ opts, (splitOnChar '=' o).length = 2) →
    parseOptions opts c0 = .ok { c0 with DisableHTTPS := lastDisableHTTPS opts c0.DisableHTTPS } := by
  induction opts with
  | nil => intro c0 h; simp [parseOptions, lastDisableHTTPS, disableHTTPSValues]
  | cons o rest ih =>
    intro c0 h
    have ho : (splitOnChar '=' o).length = 2 := h o (List.mem_cons_self o rest)
    have hrest : ∀ o2 ∈ rest, (splitOnChar '=' o2).length = 2 :=
      fun o2 hm => h o2 (List.mem_cons_of_mem o hm)
    match hsp : splitOnChar '=' o with
    | [k, v] =>
      rw [lastDisableHTTPS_cons, hsp]
      by_cases hk : k = "disable_https"
      · simp only [parseOptions, hsp, hk, if_true]
        exact ih _ hrest
      · simp only [parseOptions, hsp, hk, if_false]
        exact ih _ hrest
    | [] => rw [hsp] at ho; simp at ho
    | [k] => rw [hsp] at ho; simp at ho
    | k :: v :: w :: tail => rw [hsp] at ho; simp at ho

theorem parseOptions_error_of_malformed (opts : List String) : ∀ c : Config,
    (∃ o ∈ opts, (splitOnChar '=' o).length ≠ 2) →
    ∃ err, parseOptions opts c = .error err := by
  induction opts with
  | nil => intro c h2; simp at h2
  | cons o rest ih =>
    intro c h2
    match hsp : splitOnChar '=' o with
    | [k, v] =>
      have htail : ∃ o2 ∈ rest, (splitOnChar '=' o2).length ≠ 2 := by
        rcases h2 with ⟨o2, hm, hlen⟩
        rcases List.mem_cons.mp hm with heq | hm2
        · subst heq; rw [hsp] at hlen; simp at hlen
        · exact ⟨o2, hm2, hlen⟩
      by_cases hk : k = "disable_https"
      · simpa only [parseOptions, hsp, hk, if_true] using ih _ htail
      · simpa only [parseOptions, hsp, hk, if_false] using ih _ htail
    | [] => exact ⟨.badQueryOption o, by simp [parseOptions, hsp]⟩
    | [k] => exact ⟨.badQueryOption o, by simp [parseOptions, hsp]⟩
    | k :: v :: w :: tail => exact ⟨.badQueryOption o, by simp [parseOptions, hsp]⟩

/-- C7 amended: over any query options, when every pair splits on '=' into
exactly two parts the loop succeeds and the transport flag equals the
last disable_https pair's value compared with "true" (the prior flag when
none occurs; unrecognized keys are ignored), and when some pair does not
split into exactly two parts the loop returns a parse error. -/
theorem query_flag_last_wins (opts opts2 : List String) (c0 c2 : Config)
    (h : ∀ o ∈ opts, (splitOnChar '=' o).length = 2)
    (h2 : ∃ o ∈ opts2, (splitOnChar '=' o).length ≠ 2) :
    parseOptions opts c0 = .ok { c0 with DisableHTTPS := lastDisableHTTPS opts c0.DisableHTTPS }
    ∧ ∃ err, parseOptions opts2 c2 = .error err :=
  ⟨parseOptions_ok_of_wellformed opts c0 h, parseOptions_error_of_malformed opts2 c2 h2⟩

theorem query_flag_last_wins_witness :
    (∀ o ∈ ["disable_https=true", "x=1", "disable_https=false"],
        (splitOnChar '=' o).length = 2)
    ∧ (∃ o ∈ ["oops"], (splitOnChar '=' o).length ≠ 2)
    ∧ (parseOptions ["disable_https=true", "x=1", "disable_https=false"]
          ⟨"i", "s", "k", "h", "b", false⟩
        = .ok { Config.mk "i" "s" "k" "h" "b" false with
                  DisableHTTPS :=
                    lastDisableHTTPS ["disable_https=true", "x=1", "disable_https=false"]
                      (Config.mk "i" "s" "k" "h" "b" false).DisableHTTPS }
        ∧ ∃ err, parseOptions ["oops"] ⟨"i", "s", "k", "h", "b", false⟩ = .error err) :=
  ⟨by decide, ⟨"oops", by decide⟩,
    query_flag_last_wins ["disable_https=true", "x=1", "disable_https=false"] ["oops"]
      ⟨"i", "s", "k", "h", "b", false⟩ ⟨"i", "s", "k", "h", "b", false⟩
      (by decide) ⟨"oops", by decide⟩⟩

end StacksEnv
